import Mathlib

/-!
Shallow embedding, in Lean 4, of the stream-learning components of the
scikit-multiflow repository that the specification talks about:

* `InstanceHeader.get_header_label_at`
  (skmultiflow/core/instances/instance_header.py);
* `SEAGenerator` — construction, `prepare_for_use`, `restart`,
  `next_instance` and the four classification functions
  (skmultiflow/data/generators/sea_generator.py);
* `EvaluateStreamGenerationSpeed._measure_stream_speed`
  (skmultiflow/evaluation/evaluate_stream_gen_speed.py);
* the prequential demo loop of skmultiflow/demos/_test_oza_bagging_adwin.py.

Modelling conventions.  Python floats are modelled as `ℚ`; machine floats'
rounding plays no role in any of the properties treated here.  numpy's global
seeded pseudo-random generator is modelled abstractly: a draw function
`f : ℤ → ℕ → ℚ` gives the value of the `pos`-th call of `rand()` made after
the generator was last seeded with `seed`; re-seeding resets `pos` to `0`.
All properties below are proved for every such `f` (where needed, under the
numpy contract that draws lie in `[0, 1)`).  Wall-clock time is modelled as an
arbitrary sequence `elapsed : ℕ → ℚ` of readings of `timer() - init_time`,
one per loop-condition check.  While-loops that Python cannot bound are given
explicit fuel; exhausted fuel (`none` / `diverge`) models a loop still
running.
-/

namespace Skmultiflow

/-! ## InstanceHeader (skmultiflow/core/instances/instance_header.py) -/

/-- Embedding of `InstanceHeader.get_header_label_at(header_index)`.
The object's `header` attribute is `Option (List String)` (`None` or a list);
the Python code returns `self.header[header_index]` when
`header_index > -1 and header_index < len(self.header)` and `None` in every
other case (including `header = None`).  The in-bounds branch accesses the
element directly, which is total under the guard. -/
def get_header_label_at (header : Option (List String)) (header_index : ℤ) :
    Option String :=
  match header with
  | some l =>
      if hi : (-1 : ℤ) < header_index ∧ header_index < (l.length : ℤ) then
        some (l.get ⟨header_index.toNat, by omega⟩)
      else
        none
  | none => none

/-! ## EvaluateStreamGenerationSpeed
(skmultiflow/evaluation/evaluate_stream_gen_speed.py)

`_measure_stream_speed` runs

    while ((timer() - init_time <= self.max_time)
           & (sample_count+self.batch_size <= self.num_samples)
           & (sample_count+self.batch_size <= stream_local_max)):
        sample = stream.next_instance(self.batch_size)
        sample_count += self.batch_size
        ... (a logging-only inner loop updating true_percentage_index,
             which writes no observable state and is elided here) ...

The observable state is `(sample_count, pulls)` where `pulls` counts the
calls of `stream.next_instance`.  `max_time = float("inf")` is `none`. -/

/-- Evaluator configuration as stored (unvalidated) by
`EvaluateStreamGenerationSpeed.__init__`. -/
structure EvalSGS where
  num_samples : ℕ
  max_time : Option ℚ
  batch_size : ℕ
deriving DecidableEq

/-- Embedding of `EvaluateStreamGenerationSpeed.__init__`: every argument is
stored as given; the constructor performs no validation. -/
def EvalSGS.init (num_samples : ℕ) (max_time : Option ℚ) (batch_size : ℕ) :
    EvalSGS :=
  { num_samples := num_samples, max_time := max_time, batch_size := batch_size }

/-- The check `timer() - init_time <= self.max_time` at the `t`-th evaluation
of the loop condition; `max_time = none` models `float("inf")`. -/
def timeCheck (max_time : Option ℚ) (elapsed : ℕ → ℚ) (t : ℕ) : Bool :=
  match max_time with
  | none => true
  | some m => decide (elapsed t ≤ m)

/-- `stream_local_max`: `float("inf")` (= `none`) when
`estimated_remaining_instances()` is `-1`, otherwise that estimate itself. -/
def streamLocalMax (est : ℤ) : Option ℤ :=
  if est = -1 then none else some est

/-- The stream bound conjunct `sample_count + batch_size <= stream_local_max`
of the loop condition. -/
def streamMaxCheck (streamMax : Option ℤ) (sc batch : ℕ) : Bool :=
  match streamMax with
  | none => true
  | some r => decide ((sc : ℤ) + batch ≤ r)

/-- One run of the while-loop of `_measure_stream_speed`, with fuel.  State is
`(sample_count, pulls)`; the result is `some (sample_count, pulls)` when the
loop condition fails within `fuel` checks, `none` when the loop is still
running after `fuel` iterations. -/
def measureLoop (timeOk : ℕ → Bool) (num_samples batch_size : ℕ)
    (streamMax : Option ℤ) : ℕ → ℕ → ℕ → Option (ℕ × ℕ)
  | 0, _, _ => none
  | fuel + 1, sc, pulls =>
    if timeOk pulls && decide (sc + batch_size ≤ num_samples)
        && streamMaxCheck streamMax sc batch_size then
      measureLoop timeOk num_samples batch_size streamMax fuel
        (sc + batch_size) (pulls + 1)
    else
      some (sc, pulls)

/-- Embedding of `EvaluateStreamGenerationSpeed._measure_stream_speed`:
the loop started from `sample_count = 0` with the stream bound derived from
`estimated_remaining_instances()`. -/
def measure_stream_speed (e : EvalSGS) (elapsed : ℕ → ℚ) (est : ℤ)
    (fuel : ℕ) : Option (ℕ × ℕ) :=
  measureLoop (timeCheck e.max_time elapsed) e.num_samples e.batch_size
    (streamLocalMax est) fuel 0 0

/-! ## SEAGenerator (skmultiflow/data/generators/sea_generator.py)

The generator's state relevant to `next_instance` consists of the four
configuration fields set by `__configure`, the seeded random stream
(modelled as the pair `(rngSeed, rngPos)` interpreted through a draw function
`f : ℤ → ℕ → ℚ`), and the class-balancing flag `next_class_should_be_zero`.
`instance_random.seed(s)` is `rngSeed := s, rngPos := 0`; each `rand()` call
reads `f rngSeed rngPos` and advances `rngPos`. -/

structure SEAGen where
  classification_function_index : ℕ
  instance_seed : ℤ
  balance_classes : Bool
  noise_percentage : ℚ
  rngSeed : ℤ
  rngPos : ℕ
  next_class_should_be_zero : Bool
deriving DecidableEq

/-- `classification_function_zero`: label 0 iff `att1 + att2 <= 8`. -/
def classification_function_zero (att1 att2 _att3 : ℚ) : ℕ :=
  if att1 + att2 ≤ 8 then 0 else 1

/-- `classification_function_one`: label 0 iff `att1 + att2 <= 9`. -/
def classification_function_one (att1 att2 _att3 : ℚ) : ℕ :=
  if att1 + att2 ≤ 9 then 0 else 1

/-- `classification_function_two`: label 0 iff `att1 + att2 <= 7`. -/
def classification_function_two (att1 att2 _att3 : ℚ) : ℕ :=
  if att1 + att2 ≤ 7 then 0 else 1

/-- `classification_function_three`: label 0 iff `att1 + att2 <= 9.5`. -/
def classification_function_three (att1 att2 _att3 : ℚ) : ℕ :=
  if att1 + att2 ≤ 19/2 then 0 else 1

/-- The list `self.classification_functions` built by `__init__`. -/
def classification_functions : List (ℚ → ℚ → ℚ → ℕ) :=
  [classification_function_zero, classification_function_one,
   classification_function_two, classification_function_three]

/-- Embedding of `SEAGenerator.__init__` / `__configure`: all arguments are
stored unvalidated; the random generator is seeded with `instance_seed` and
`next_class_should_be_zero` is set to `False`. -/
def SEAGen.init (classification_function : ℕ) (instance_seed : ℤ)
    (balance_classes : Bool) (noise_percentage : ℚ) : SEAGen :=
  { classification_function_index := classification_function
    instance_seed := instance_seed
    balance_classes := balance_classes
    noise_percentage := noise_percentage
    rngSeed := instance_seed
    rngPos := 0
    next_class_should_be_zero := false }

/-- Embedding of `SEAGenerator.restart`: re-seed the random generator with
`instance_seed` and reset `next_class_should_be_zero` to `False`. -/
def SEAGen.restart (g : SEAGen) : SEAGen :=
  { g with rngSeed := g.instance_seed, rngPos := 0,
           next_class_should_be_zero := false }

/-- Embedding of `SEAGenerator.prepare_for_use`, which just calls
`self.restart()`. -/
def SEAGen.prepare_for_use (g : SEAGen) : SEAGen :=
  g.restart

/-- Result of one `next_instance(1)` call: the three attributes and the
label together with the new generator state, a Python `IndexError` from
`self.classification_functions[idx]` when the index is out of range, or
fuel exhaustion of the class-balancing `while` loop. -/
inductive GenResult where
  | ok : ℚ × ℚ × ℚ → ℕ → SEAGen → GenResult
  | indexError : GenResult
  | diverge : GenResult
deriving DecidableEq

/-- The `while not desired_class_found` loop inside `next_instance`.  Each
iteration draws `att1 = 10*rand()`, `att2 = 10*rand()`, `att3 = 10*rand()`
(three successive draws, advancing the random position by 3), applies the
selected classification function, and accepts the sample unless
`balance_classes` demands the other class, in which case it redraws. -/
def nextInstanceLoop (f : ℤ → ℕ → ℚ) : ℕ → SEAGen → GenResult
  | 0, _ => .diverge
  | fuel + 1, g =>
    let att1 := 10 * f g.rngSeed g.rngPos
    let att2 := 10 * f g.rngSeed (g.rngPos + 1)
    let att3 := 10 * f g.rngSeed (g.rngPos + 2)
    let g3 : SEAGen := { g with rngPos := g.rngPos + 3 }
    match classification_functions.get? g.classification_function_index with
    | none => .indexError
    | some cf =>
      let group := cf att1 att2 att3
      if g.balance_classes = false then
        .ok (att1, att2, att3) group g3
      else if (g3.next_class_should_be_zero && group == 0)
          || (!g3.next_class_should_be_zero && group == 1) then
        .ok (att1, att2, att3) group
          { g3 with next_class_should_be_zero := !g3.next_class_should_be_zero }
      else
        nextInstanceLoop f fuel g3

/-- Embedding of `SEAGenerator.next_instance` for a single sample
(`batch_size = 1`): run the class-balancing loop, then draw once more for the
noise step and flip the label when `0.01 + rand() <= noise_percentage`. -/
def next_instance_one (f : ℤ → ℕ → ℚ) (fuel : ℕ) (g : SEAGen) : GenResult :=
  match nextInstanceLoop f fuel g with
  | .ok atts group g1 =>
    let r := f g1.rngSeed g1.rngPos
    let g2 : SEAGen := { g1 with rngPos := g1.rngPos + 1 }
    let group2 := if (1/100 : ℚ) + r ≤ g1.noise_percentage then
        (if group = 0 then 1 else 0) else group
    .ok atts group2 g2
  | e => e

/-- State threading of a sequence of `next_instance` calls (each with its own
fuel for the balancing loop); a call that raises or diverges leaves the state
unchanged here, which only enlarges the set of states quantified over. -/
def runCalls (f : ℤ → ℕ → ℚ) (fuels : List ℕ) (g : SEAGen) : SEAGen :=
  fuels.foldl (fun g fuel =>
    match next_instance_one f fuel g with
    | .ok _ _ g1 => g1
    | _ => g) g

/-- The sequence of `(features, label)` outputs of `n` successive
`next_instance` calls (stopping early on error or divergence). -/
def nextSeq (f : ℤ → ℕ → ℚ) (fuel : ℕ) : ℕ → SEAGen → List ((ℚ × ℚ × ℚ) × ℕ)
  | 0, _ => []
  | n + 1, g =>
    match next_instance_one f fuel g with
    | .ok atts label g1 => (atts, label) :: nextSeq f fuel n g1
    | _ => []

/-- The threshold compared against `att1 + att2` by classification function
`i`: 8, 9, 7, 9.5 for `i` = 0, 1, 2, 3. -/
def sea_threshold : ℕ → ℚ := fun i => [8, 9, 7, 19/2].getD i 0

/-! ## The prequential demo loop (skmultiflow/demos/_test_oza_bagging_adwin.py)

The demo pulls instances from the stream in order; instance `i` is the
`i`-th instance the stream ever emits.  Pretraining (when `train_size > 0`)
consumes instances `0 .. train_size - 1` with one `next_instance(train_size)`
pull and one `partial_fit`, without prediction.  Loop iteration `k` pulls
instance `train_size + k`, calls `predict`, then `partial_fit`, then updates
the counters.  The classifier is abstracted by a prediction oracle
`pred : ℕ → Option ℤ` (`pred i` is `clf.predict(X)[0]` for instance `i`,
`none` when the classifier returns the no-prediction sentinel `None`), and
the stream's labels by `y : ℕ → ℤ` (`y i` is `y[0]` for instance `i`).
The claims below hold for every such oracle, hence for the actual
`OzaBaggingAdwin` classifier. -/

/-- Interaction events of the demo: `pull first count` is
`stream.next_instance(count)` returning instances
`first .. first + count - 1`; `predict i` is `clf.predict` on instance `i`;
`fit first count` is `clf.partial_fit` on instances
`first .. first + count - 1`. -/
inductive DemoEvent where
  | pull : ℕ → ℕ → DemoEvent
  | predict : ℕ → DemoEvent
  | fit : ℕ → ℕ → DemoEvent
deriving DecidableEq

/-- Whether a demo event is a `partial_fit` call whose batch contains
instance `idx`. -/
def fitContains (e : DemoEvent) (idx : ℕ) : Bool :=
  match e with
  | .fit first count => decide (first ≤ idx ∧ idx < first + count)
  | _ => false

/-- Event trace of the demo's main `while sample_count < max_samples` loop:
iteration `k` (with `sample_count = k`) pulls instance `off + k`, predicts on
it, then fits on it, where `off` is the number of instances already consumed
by pretraining. -/
def loopTrace (off : ℕ) : ℕ → List DemoEvent
  | 0 => []
  | k + 1 =>
    loopTrace off k ++ [.pull (off + k) 1, .predict (off + k), .fit (off + k) 1]

/-- Full event trace of `demo()`: the pretraining pull-and-fit (when
`train_size > 0`) followed by the main loop's trace. -/
def demoTrace (train_size max_samples : ℕ) : List DemoEvent :=
  (if 0 < train_size then [.pull 0 train_size, .fit 0 train_size] else [])
    ++ loopTrace train_size max_samples

/-- The counter update of one loop iteration on instance `i`: the source
increments `correctly_classified` iff `my_pred is not None` and
`y[0] == my_pred[0]`. -/
def correctStep (pred : ℕ → Option ℤ) (y : ℕ → ℤ) (i : ℕ) : Bool :=
  match pred i with
  | none => false
  | some v => decide (y i = v)

/-- The demo's main loop acting on the counters
`(sample_count, correctly_classified)`; `remaining` is
`max_samples - sample_count`, and the instance scored when the counter is
`sc` is instance `off + sc`.  (In the source the correctness check follows
`partial_fit`; `partial_fit` does not touch the counters, so the order is
immaterial to them.) -/
def demoLoop (pred : ℕ → Option ℤ) (y : ℕ → ℤ) (off : ℕ) :
    ℕ → ℕ → ℕ → ℕ × ℕ
  | 0, sc, cc => (sc, cc)
  | remaining + 1, sc, cc =>
    demoLoop pred y off remaining (sc + 1)
      (if correctStep pred y (off + sc) then cc + 1 else cc)

/-- The final `(sample_count, correctly_classified)` of `demo()`: the main
loop run from `(0, 0)` after pretraining consumed the first `train_size`
instances. -/
def demoRun (pred : ℕ → Option ℤ) (y : ℕ → ℤ)
    (train_size max_samples : ℕ) : ℕ × ℕ :=
  demoLoop pred y train_size max_samples 0 0

/-- Number of correctly classified instances among loop instances
`off + start, …, off + start + n - 1`, counted in loop order. -/
def correctFrom (pred : ℕ → Option ℤ) (y : ℕ → ℤ) (off : ℕ) :
    ℕ → ℕ → ℕ
  | _, 0 => 0
  | start, n + 1 =>
    (if correctStep pred y (off + start) then 1 else 0)
      + correctFrom pred y off (start + 1) n

/-- The performance printed at the end of `demo()`:
`correctly_classified / sample_count` (as a rational). -/
def reportedPerformance (pred : ℕ → Option ℤ) (y : ℕ → ℤ)
    (train_size max_samples : ℕ) : ℚ :=
  ((demoRun pred y train_size max_samples).2 : ℚ)
    / ((demoRun pred y train_size max_samples).1 : ℚ)

/-- Number of scored instances for which the classifier produced a
non-sentinel prediction (the denominator the specification asks for). -/
def nonSentinelCount (pred : ℕ → Option ℤ) (train_size max_samples : ℕ) : ℕ :=
  (List.range max_samples).countP (fun k => (pred (train_size + k)).isSome)

/-! ## Lemmas about the measurement loop -/

/-- With a positive batch size and enough fuel, the measurement loop always
returns: some number `q` of iterations ran, each pulling exactly one batch of
`batch` samples, and the final `sample_count` is `q * batch ≤ num_samples`. -/
lemma measureLoop_run (timeOk : ℕ → Bool) (ns batch : ℕ) (sm : Option ℤ)
    (hb : 1 ≤ batch) :
    ∀ fuel sc pulls, sc ≤ ns → ns + 1 ≤ sc + fuel →
      ∃ q, measureLoop timeOk ns batch sm fuel sc pulls
            = some (sc + q * batch, pulls + q)
        ∧ sc + q * batch ≤ ns := by
  intro fuel
  induction fuel with
  | zero => intro sc pulls h1 h2; omega
  | succ fuel ih =>
    intro sc pulls h1 h2
    simp only [measureLoop]
    split
    case isTrue hc =>
      have hle : sc + batch ≤ ns := by
        simp only [Bool.and_eq_true, decide_eq_true_eq] at hc
        exact hc.1.2
      obtain ⟨q, hq, hqle⟩ := ih (sc + batch) (pulls + 1) hle (by omega)
      have harith : sc + batch + q * batch = sc + (q + 1) * batch := by ring
      refine ⟨q + 1, ?_, by omega⟩
      rw [hq, harith]
      have : pulls + 1 + q = pulls + (q + 1) := by omega
      rw [this]
    case isFalse hc =>
      exact ⟨0, by simp, by omega⟩

/-- For a finite stream bound `R`, the measurement loop never drives
`sample_count` past `R`. -/
lemma measureLoop_stream_bound (timeOk : ℕ → Bool) (ns batch : ℕ) (R : ℤ) :
    ∀ fuel sc pulls sc' pulls',
      measureLoop timeOk ns batch (some R) fuel sc pulls = some (sc', pulls') →
      (sc : ℤ) ≤ R → (sc' : ℤ) ≤ R := by
  intro fuel
  induction fuel with
  | zero => intro sc pulls sc' pulls' h; simp [measureLoop] at h
  | succ fuel ih =>
    intro sc pulls sc' pulls' h hsc
    simp only [measureLoop] at h
    split at h
    case isTrue hc =>
      have hR : (sc : ℤ) + batch ≤ R := by
        simp only [Bool.and_eq_true, streamMaxCheck, decide_eq_true_eq] at hc
        exact_mod_cast hc.2
      exact ih _ _ _ _ h (by push_cast; omega)
    case isFalse hc =>
      simp only [Option.some.injEq, Prod.mk.injEq] at h
      omega

/-- With `batch_size = 0` (and no other bound binding), the measurement loop
makes no progress and never terminates: every amount of fuel is exhausted. -/
lemma measureLoop_batch_zero (ns : ℕ) :
    ∀ fuel pulls,
      measureLoop (fun _ => true) ns 0 none fuel 0 pulls = none := by
  intro fuel
  induction fuel with
  | zero => intro pulls; rfl
  | succ fuel ih =>
    intro pulls
    simp only [measureLoop, streamMaxCheck, Bool.and_true, Bool.true_and,
      Nat.add_zero, decide_eq_true_eq]
    split
    case isTrue hc => exact ih (pulls + 1)
    case isFalse hc => omega

/-! ## C1 — evaluator sample-budget enforcement -/

/-- C1 (counterexample to the claim as stated): the claim asserts the loop
processes exactly 100 instances regardless of `max_time`; but with
`num_samples = 100`, `batch_size = 1`, an infinite stream
(`estimated_remaining_instances() = -1`), `max_time = 0` and every elapsed
reading equal to `1`, the very first time check fails and the loop stops with
`sample_count = 0 ≠ 100`. -/
theorem C1_counterexample :
    measure_stream_speed (EvalSGS.init 100 (some 0) 1) (fun _ => 1) (-1) 101
      = some (0, 0) ∧ (0 : ℕ) ≠ 100 := by
  constructor
  · decide
  · decide

/-- C1 (amended): with `num_samples = 100`, `batch_size = 1` and an infinite
stream, the loop processes exactly 100 instances (final `sample_count = 100`,
in 100 pulls) for every `max_time` and elapsed-time trace such that the time
check passes at every iteration — in particular for the default
`max_time = float("inf")`; a `max_time` below the elapsed time instead stops
the loop early. -/
theorem C1_budget_enforcement (max_time : Option ℚ) (elapsed : ℕ → ℚ)
    (htime : ∀ t, timeCheck max_time elapsed t = true) :
    measure_stream_speed (EvalSGS.init 100 max_time 1) elapsed (-1) 101
      = some (100, 100) := by
  show measureLoop (timeCheck max_time elapsed) 100 1 (streamLocalMax (-1))
      101 0 0 = some (100, 100)
  rw [funext htime]
  decide

/-- C1 witness: the amended theorem applied at `max_time = float("inf")`
(`none`), where the time check trivially passes. -/
theorem C1_budget_enforcement_witness :
    measure_stream_speed (EvalSGS.init 100 none 1) (fun _ => 0) (-1) 101
      = some (100, 100) :=
  C1_budget_enforcement none (fun _ => 0) (fun _ => rfl)

/-! ## C4 — graceful stream exhaustion -/

/-- C4: for every stream whose `estimated_remaining_instances()` is a finite
`R ≥ 0`, the measurement loop terminates normally (within
`num_samples + 1` condition checks), performs at most `⌊R / batch_size⌋`
batch pulls of `batch_size` samples each — so it never requests samples
beyond `R` — and the reported `sample_count` is exactly the number of samples
actually pulled (`pulls * batch_size ≤ R`). -/
theorem C4_graceful_exhaustion (e : EvalSGS) (elapsed : ℕ → ℚ) (R : ℤ)
    (hR : 0 ≤ R) (hb : 1 ≤ e.batch_size) :
    ∃ sc pulls,
      measure_stream_speed e elapsed R (e.num_samples + 1) = some (sc, pulls)
      ∧ sc = pulls * e.batch_size
      ∧ (sc : ℤ) ≤ R
      ∧ pulls ≤ R.toNat / e.batch_size := by
  have hsm : streamLocalMax R = some R := by
    unfold streamLocalMax
    rw [if_neg (by omega)]
  obtain ⟨q, hq, hqle⟩ := measureLoop_run (timeCheck e.max_time elapsed)
    e.num_samples e.batch_size (streamLocalMax R) hb (e.num_samples + 1) 0 0
    (Nat.zero_le _) (by omega)
  simp only [Nat.zero_add] at hq
  have hbound : ((q * e.batch_size : ℕ) : ℤ) ≤ R := by
    rw [hsm] at hq
    exact measureLoop_stream_bound _ _ _ R _ 0 0 _ _ hq (by exact_mod_cast hR)
  refine ⟨q * e.batch_size, q, ?_, rfl, hbound, ?_⟩
  · exact hq
  · rw [Nat.le_div_iff_mul_le hb]
    omega

/-- C4 witness: a concrete run with `R = 7`, `batch_size = 3`,
`num_samples = 10`. -/
theorem C4_graceful_exhaustion_witness :
    (0 : ℤ) ≤ 7 ∧ 1 ≤ (EvalSGS.init 10 none 3).batch_size ∧
    ∃ sc pulls,
      measure_stream_speed (EvalSGS.init 10 none 3) (fun _ => 0) 7
          ((EvalSGS.init 10 none 3).num_samples + 1) = some (sc, pulls)
      ∧ sc = pulls * (EvalSGS.init 10 none 3).batch_size
      ∧ (sc : ℤ) ≤ 7
      ∧ pulls ≤ (7 : ℤ).toNat / (EvalSGS.init 10 none 3).batch_size :=
  ⟨by decide, by decide,
    C4_graceful_exhaustion (EvalSGS.init 10 none 3) (fun _ => 0) 7
      (by decide) (by decide)⟩

/-! ## C8 — termination under the sample budget -/

/-- C8: for every `batch_size ≥ 1` and finite `num_samples`, the measurement
loop terminates after at most `⌊num_samples / batch_size⌋` iterations (here:
within `num_samples + 1` checks of the loop condition, which is evaluated
once per batch iteration, never mid-batch), each iteration pulling exactly
one batch, so the final `sample_count` is `pulls * batch_size`.  The
hypothesis `batch_size ≥ 1` is necessary: `measureLoop_batch_zero` shows the
loop makes no progress when `batch_size = 0`. -/
theorem C8_budget_termination (e : EvalSGS) (elapsed : ℕ → ℚ) (est : ℤ)
    (hb : 1 ≤ e.batch_size) :
    ∃ pulls,
      measure_stream_speed e elapsed est (e.num_samples + 1)
        = some (pulls * e.batch_size, pulls)
      ∧ pulls ≤ e.num_samples / e.batch_size := by
  obtain ⟨q, hq, hqle⟩ := measureLoop_run (timeCheck e.max_time elapsed)
    e.num_samples e.batch_size (streamLocalMax est) hb (e.num_samples + 1) 0 0
    (Nat.zero_le _) (by omega)
  simp only [Nat.zero_add] at hq
  refine ⟨q, hq, ?_⟩
  rw [Nat.le_div_iff_mul_le hb]
  omega

/-- C8 witness: with `num_samples = 10`, `batch_size = 3` and an infinite
stream the loop stops after 3 pulls (`3 ≤ ⌊10 / 3⌋`), having generated 9
samples. -/
theorem C8_budget_termination_witness :
    1 ≤ (EvalSGS.init 10 none 3).batch_size ∧
    ∃ pulls,
      measure_stream_speed (EvalSGS.init 10 none 3) (fun _ => 0) (-1)
          ((EvalSGS.init 10 none 3).num_samples + 1)
        = some (pulls * (EvalSGS.init 10 none 3).batch_size, pulls)
      ∧ pulls ≤ (EvalSGS.init 10 none 3).num_samples
          / (EvalSGS.init 10 none 3).batch_size :=
  ⟨by decide,
    C8_budget_termination (EvalSGS.init 10 none 3) (fun _ => 0) (-1)
      (by decide)⟩

/-! ## C6 — construction-time validation -/

/-- C6 (counterexample to the claim as stated): the claim asserts that
`SEAGenerator` rejects a `classification_function` outside 0–3 at
construction and that the evaluator rejects a non-positive `batch, size` at
construction.  In fact construction succeeds and stores the invalid values:
`SEAGenerator(7, ...)` is built with index 7 and only the later
`next_instance` call fails (IndexError), and
`EvaluateStreamGenerationSpeed(..., batch_size=0)` is built with batch size 0
and its measurement loop then never terminates. -/
theorem C6_counterexample :
    (SEAGen.init 7 42 false 0).classification_function_index = 7
    ∧ next_instance_one (fun _ _ => 0) 1 (SEAGen.init 7 42 false 0)
        = GenResult.indexError
    ∧ (EvalSGS.init 100 none 0).batch_size = 0
    ∧ measure_stream_speed (EvalSGS.init 100 none 0) (fun _ => 0) (-1) 1000
        = none := by
  refine ⟨rfl, rfl, rfl, ?_⟩
  exact measureLoop_batch_zero 100 1000 0

/-- C6 (amended): the constructors perform no validation.  `SEAGenerator`
stores any `classification_function` index unchanged — an out-of-range index
is accepted at construction and only fails (with an index error) once
`next_instance` is called — and `EvaluateStreamGenerationSpeed` stores any
`batch_size` unchanged; with `batch_size = 0` the measurement loop never
terminates, whatever fuel it is given. -/
theorem C6_no_validation (cf : ℕ) (seed : ℤ) (bal : Bool) (noise : ℚ)
    (ns : ℕ) (mt : Option ℚ) (bs : ℕ) (f : ℤ → ℕ → ℚ) (elapsed : ℕ → ℚ) :
    (SEAGen.init cf seed bal noise).classification_function_index = cf
    ∧ (4 ≤ cf →
        next_instance_one f 1 (SEAGen.init cf seed bal noise)
          = GenResult.indexError)
    ∧ (EvalSGS.init ns mt bs).batch_size = bs
    ∧ (∀ fuel,
        measure_stream_speed (EvalSGS.init ns none 0) elapsed (-1) fuel
          = none) := by
  refine ⟨rfl, ?_, rfl, ?_⟩
  · intro hcf
    have hget : classification_functions.get? cf = none := by
      rw [List.get?_eq_none]
      simpa [classification_functions] using hcf
    rw [List.get?_eq_getElem?] at hget
    simp [next_instance_one, nextInstanceLoop, SEAGen.init, hget]
  · intro fuel
    have htc : timeCheck none elapsed = fun _ => true := rfl
    show measureLoop (timeCheck none elapsed) ns 0 (streamLocalMax (-1))
        fuel 0 0 = none
    rw [htc]
    exact measureLoop_batch_zero ns fuel 0

/-- C6 witness: the amended theorem at `classification_function = 5` and
`batch_size = 0`, with the out-of-range hypothesis discharged. -/
theorem C6_no_validation_witness :
    (SEAGen.init 5 1 true 0).classification_function_index = 5
    ∧ next_instance_one (fun _ _ => 0) 1 (SEAGen.init 5 1 true 0)
        = GenResult.indexError
    ∧ (EvalSGS.init 50 none 0).batch_size = 0
    ∧ measure_stream_speed (EvalSGS.init 50 none 0) (fun _ => 0) (-1) 77
        = none := by
  have h := C6_no_validation 5 1 true 0 50 none 0 (fun _ _ => 0) (fun _ => 0)
  exact ⟨h.1, h.2.1 (by omega), h.2.2.1, h.2.2.2 77⟩

/-! ## Lemmas about SEAGenerator -/

/-- Two generator states are equal once all seven fields agree. -/
lemma SEAGen.eq_of_fields {g g1 : SEAGen}
    (h1 : g.classification_function_index = g1.classification_function_index)
    (h2 : g.instance_seed = g1.instance_seed)
    (h3 : g.balance_classes = g1.balance_classes)
    (h4 : g.noise_percentage = g1.noise_percentage)
    (h5 : g.rngSeed = g1.rngSeed) (h6 : g.rngPos = g1.rngPos)
    (h7 : g.next_class_should_be_zero = g1.next_class_should_be_zero) :
    g = g1 := by
  cases g; cases g1; simp_all

/-- The class-balancing loop never changes the four configuration fields set
by `__configure` (it only consumes random draws and toggles
`next_class_should_be_zero`). -/
lemma nextInstanceLoop_config (f : ℤ → ℕ → ℚ) :
    ∀ (fuel : ℕ) (g : SEAGen) atts label g1,
      nextInstanceLoop f fuel g = .ok atts label g1 →
      g1.classification_function_index = g.classification_function_index
      ∧ g1.instance_seed = g.instance_seed
      ∧ g1.balance_classes = g.balance_classes
      ∧ g1.noise_percentage = g.noise_percentage := by
  intro fuel
  induction fuel with
  | zero => intro g atts label g1 h; simp [nextInstanceLoop] at h
  | succ fuel ih =>
    intro g atts label g1 h
    simp only [nextInstanceLoop] at h
    split at h
    · exact absurd h (by simp)
    · split at h
      · injection h with ha hl hg
        subst hg
        exact ⟨rfl, rfl, rfl, rfl⟩
      · split at h
        · injection h with ha hl hg
          subst hg
          exact ⟨rfl, rfl, rfl, rfl⟩
        · obtain ⟨k1, k2, k3, k4⟩ := ih _ _ _ _ h
          exact ⟨k1, k2, k3, k4⟩

/-- `next_instance` (single sample) never changes the four configuration
fields. -/
lemma next_instance_one_config (f : ℤ → ℕ → ℚ) (fuel : ℕ)
    (g : SEAGen) (atts : ℚ × ℚ × ℚ) (label : ℕ) (g1 : SEAGen)
    (h : next_instance_one f fuel g = .ok atts label g1) :
    g1.classification_function_index = g.classification_function_index
    ∧ g1.instance_seed = g.instance_seed
    ∧ g1.balance_classes = g.balance_classes
    ∧ g1.noise_percentage = g.noise_percentage := by
  unfold next_instance_one at h
  cases hg : nextInstanceLoop f fuel g with
  | ok atts0 label0 gmid =>
    rw [hg] at h
    obtain ⟨hc1, hc2, hc3, hc4⟩ := nextInstanceLoop_config f fuel g atts0 label0 gmid hg
    injection h with ha hl hgr
    subst hgr
    exact ⟨hc1, hc2, hc3, hc4⟩
  | indexError => rw [hg] at h; exact absurd h (by simp)
  | diverge => rw [hg] at h; exact absurd h (by simp)

/-- An arbitrary sequence of `next_instance` calls never changes the four
configuration fields. -/
lemma runCalls_config (f : ℤ → ℕ → ℚ) (fuels : List ℕ) :
    ∀ g : SEAGen,
      (runCalls f fuels g).classification_function_index
          = g.classification_function_index
      ∧ (runCalls f fuels g).instance_seed = g.instance_seed
      ∧ (runCalls f fuels g).balance_classes = g.balance_classes
      ∧ (runCalls f fuels g).noise_percentage = g.noise_percentage := by
  induction fuels with
  | nil => intro g; exact ⟨rfl, rfl, rfl, rfl⟩
  | cons fuel fuels ih =>
    intro g
    cases hg : next_instance_one f fuel g with
    | ok atts label g1 =>
      have hrun : runCalls f (fuel :: fuels) g = runCalls f fuels g1 := by
        simp only [runCalls, List.foldl_cons, hg]
      obtain ⟨h1, h2, h3, h4⟩ := next_instance_one_config f fuel g atts label g1 hg
      obtain ⟨k1, k2, k3, k4⟩ := ih g1
      rw [hrun]
      exact ⟨k1.trans h1, k2.trans h2, k3.trans h3, k4.trans h4⟩
    | indexError =>
      have hrun : runCalls f (fuel :: fuels) g = runCalls f fuels g := by
        simp only [runCalls, List.foldl_cons, hg]
      rw [hrun]
      exact ih g
    | diverge =>
      have hrun : runCalls f (fuel :: fuels) g = runCalls f fuels g := by
        simp only [runCalls, List.foldl_cons, hg]
      rw [hrun]
      exact ih g

/-! ## C5 — restart determinism and idempotent preparation -/

/-- C5: for every configuration, every draw function and every run of
`next_instance` calls after `prepare_for_use`, calling `restart()` brings the
generator back to exactly the state reached after construction followed by
`prepare_for_use()` (random stream re-seeded from `instance_seed` at position
0, `next_class_should_be_zero` reset to `False`); hence the sequence of
`(features, label)` outputs of any `n` subsequent `next_instance` calls is
identical; and `prepare_for_use()` is idempotent. -/
theorem C5_restart_determinism (cf : ℕ) (seed : ℤ) (bal : Bool) (noise : ℚ)
    (f : ℤ → ℕ → ℚ) (fuels : List ℕ) (fuel n : ℕ) :
    SEAGen.restart
        (runCalls f fuels (SEAGen.prepare_for_use (SEAGen.init cf seed bal noise)))
      = SEAGen.prepare_for_use (SEAGen.init cf seed bal noise)
    ∧ nextSeq f fuel n (SEAGen.restart
        (runCalls f fuels (SEAGen.prepare_for_use (SEAGen.init cf seed bal noise))))
      = nextSeq f fuel n (SEAGen.prepare_for_use (SEAGen.init cf seed bal noise))
    ∧ SEAGen.prepare_for_use
        (SEAGen.prepare_for_use (SEAGen.init cf seed bal noise))
      = SEAGen.prepare_for_use (SEAGen.init cf seed bal noise) := by
  obtain ⟨h1, h2, h3, h4⟩ := runCalls_config f fuels
    (SEAGen.prepare_for_use (SEAGen.init cf seed bal noise))
  have hmain : SEAGen.restart
      (runCalls f fuels (SEAGen.prepare_for_use (SEAGen.init cf seed bal noise)))
      = SEAGen.prepare_for_use (SEAGen.init cf seed bal noise) :=
    SEAGen.eq_of_fields h1 h2 h3 h4 h2 rfl rfl
  exact ⟨hmain, by rw [hmain], rfl⟩

/-! ## C9 — SEA label function and noise threshold -/

/-- For an in-range index, the selected classification function compares
`att1 + att2` against the threshold 8, 9, 7 or 9.5 and ignores `att3`. -/
lemma classification_functions_get (i : ℕ) (hi : i < 4) (a1 a2 a3 : ℚ) :
    ∃ cfFun, classification_functions.get? i = some cfFun
      ∧ cfFun a1 a2 a3 = if a1 + a2 ≤ sea_threshold i then 0 else 1 := by
  interval_cases i <;> exact ⟨_, rfl, rfl⟩

/-- C9 (amended): with `balance_classes = False` and an in-range
classification function, every `next_instance` sample consists of exactly
three features, each in `[0, 10)` (given the numpy contract that raw draws
lie in `[0, 1)`); its label is the threshold label
`0 if att1 + att2 ≤ T else 1` (with `T` = 8, 9, 7, 9.5 by index, `att3`
ignored), flipped exactly when the subsequent noise draw `r` satisfies
`0.01 + r ≤ noise_percentage`; consequently no label is ever flipped whenever
`noise_percentage` is strictly below 0.01.  (The original claim's boundary
`noise_percentage ≤ 0.01` is refuted by `C9_counterexample`: at
`noise_percentage = 0.01` a draw of `r = 0` flips the label.) -/
theorem C9_sea_label (f : ℤ → ℕ → ℚ) (hf : ∀ s p, 0 ≤ f s p ∧ f s p < 1)
    (g : SEAGen) (hbal : g.balance_classes = false)
    (hcf : g.classification_function_index < 4) (fuel : ℕ) :
    ∃ att1 att2 att3 label g1,
      next_instance_one f (fuel + 1) g = .ok (att1, att2, att3) label g1
      ∧ (0 ≤ att1 ∧ att1 < 10) ∧ (0 ≤ att2 ∧ att2 < 10)
      ∧ (0 ≤ att3 ∧ att3 < 10)
      ∧ label = (if (1/100 : ℚ) + f g.rngSeed (g.rngPos + 3)
              ≤ g.noise_percentage
          then 1 - (if att1 + att2
              ≤ sea_threshold g.classification_function_index then 0 else 1)
          else (if att1 + att2
              ≤ sea_threshold g.classification_function_index then 0 else 1))
      ∧ (g.noise_percentage < 1/100 →
          label = (if att1 + att2
              ≤ sea_threshold g.classification_function_index
            then 0 else 1)) := by
  obtain ⟨cfFun, hget, hval⟩ := classification_functions_get
    g.classification_function_index hcf
    (10 * f g.rngSeed g.rngPos) (10 * f g.rngSeed (g.rngPos + 1))
    (10 * f g.rngSeed (g.rngPos + 2))
  have hloop : nextInstanceLoop f (fuel + 1) g
      = .ok (10 * f g.rngSeed g.rngPos, 10 * f g.rngSeed (g.rngPos + 1),
             10 * f g.rngSeed (g.rngPos + 2))
          (cfFun (10 * f g.rngSeed g.rngPos) (10 * f g.rngSeed (g.rngPos + 1))
             (10 * f g.rngSeed (g.rngPos + 2)))
          { g with rngPos := g.rngPos + 3 } := by
    simp only [nextInstanceLoop, hget]
    rw [if_pos hbal]
  have hone : next_instance_one f (fuel + 1) g
      = .ok (10 * f g.rngSeed g.rngPos, 10 * f g.rngSeed (g.rngPos + 1),
             10 * f g.rngSeed (g.rngPos + 2))
          (if (1/100 : ℚ) + f g.rngSeed (g.rngPos + 3) ≤ g.noise_percentage
           then (if cfFun (10 * f g.rngSeed g.rngPos)
                    (10 * f g.rngSeed (g.rngPos + 1))
                    (10 * f g.rngSeed (g.rngPos + 2)) = 0 then 1 else 0)
           else cfFun (10 * f g.rngSeed g.rngPos)
                  (10 * f g.rngSeed (g.rngPos + 1))
                  (10 * f g.rngSeed (g.rngPos + 2)))
          { g with rngPos := g.rngPos + 3 + 1 } := by
    unfold next_instance_one
    rw [hloop]
  refine ⟨10 * f g.rngSeed g.rngPos, 10 * f g.rngSeed (g.rngPos + 1),
    10 * f g.rngSeed (g.rngPos + 2), _, _, hone, ?_, ?_, ?_, ?_, ?_⟩
  · obtain ⟨ha, hb⟩ := hf g.rngSeed g.rngPos
    constructor <;> linarith
  · obtain ⟨ha, hb⟩ := hf g.rngSeed (g.rngPos + 1)
    constructor <;> linarith
  · obtain ⟨ha, hb⟩ := hf g.rngSeed (g.rngPos + 2)
    constructor <;> linarith
  · rw [hval]
    split
    · split
      · simp
      · simp
    · rfl
  · intro hnoise
    obtain ⟨ha, hb⟩ := hf g.rngSeed (g.rngPos + 3)
    rw [if_neg (by linarith), hval]

/-- C9 (counterexample to the claim as stated): the claim says that whenever
`noise_percentage ≤ 0.01` no label is ever flipped.  At the boundary
`noise_percentage = 0.01`, a noise draw of `r = 0` (a value `numpy.rand` can
return) satisfies `0.01 + r ≤ noise_percentage`, so the label is flipped:
with all draws 0 and classification function 0, the threshold label of
`(0, 0, 0)` is 0 but `next_instance` returns label 1. -/
theorem C9_counterexample :
    (∀ (s : ℤ) (p : ℕ), 0 ≤ (fun _ _ => (0 : ℚ)) s p
        ∧ (fun _ _ => (0 : ℚ)) s p < 1)
    ∧ (SEAGen.init 0 42 false (1/100)).noise_percentage ≤ 1/100
    ∧ next_instance_one (fun _ _ => (0 : ℚ)) 1 (SEAGen.init 0 42 false (1/100))
        = GenResult.ok (0, 0, 0) 1
            { classification_function_index := 0, instance_seed := 42,
              balance_classes := false, noise_percentage := 1/100,
              rngSeed := 42, rngPos := 4, next_class_should_be_zero := false }
    ∧ (1 : ℕ) ≠ (if (0 : ℚ) + 0 ≤ sea_threshold 0 then 0 else 1) := by
  refine ⟨fun s p => ⟨le_refl 0, by norm_num⟩, by norm_num [SEAGen.init], ?_, ?_⟩
  · have hget : classification_functions.get? 0
        = some classification_function_zero := rfl
    have hloop : nextInstanceLoop (fun _ _ => (0 : ℚ)) 1
        (SEAGen.init 0 42 false (1/100))
        = .ok (0, 0, 0) 0
            { classification_function_index := 0, instance_seed := 42,
              balance_classes := false, noise_percentage := 1/100,
              rngSeed := 42, rngPos := 3, next_class_should_be_zero := false } := by
      simp only [nextInstanceLoop, SEAGen.init, hget, if_true]
      norm_num [classification_function_zero]
    unfold next_instance_one
    rw [hloop]
    norm_num
  · rw [if_pos (by norm_num [sea_threshold])]
    decide

/-- C9 witness: the amended theorem applied to a concrete generator
(classification function 2, `noise_percentage = 0`, all draws `1/2`). -/
theorem C9_sea_label_witness :
    (∀ (s : ℤ) (p : ℕ), 0 ≤ (fun _ _ => (1/2 : ℚ)) s p
        ∧ (fun _ _ => (1/2 : ℚ)) s p < 1)
    ∧ (SEAGen.init 2 7 false 0).balance_classes = false
    ∧ (SEAGen.init 2 7 false 0).classification_function_index < 4
    ∧ ∃ att1 att2 att3 label g1,
        next_instance_one (fun _ _ => (1/2 : ℚ)) 1 (SEAGen.init 2 7 false 0)
          = .ok (att1, att2, att3) label g1
        ∧ (0 ≤ att1 ∧ att1 < 10) ∧ (0 ≤ att2 ∧ att2 < 10)
        ∧ (0 ≤ att3 ∧ att3 < 10)
        ∧ label = (if (1/100 : ℚ)
                + (fun _ _ => (1/2 : ℚ)) (SEAGen.init 2 7 false 0).rngSeed
                    ((SEAGen.init 2 7 false 0).rngPos + 3)
                ≤ (SEAGen.init 2 7 false 0).noise_percentage
            then 1 - (if att1 + att2 ≤ sea_threshold
                (SEAGen.init 2 7 false 0).classification_function_index
                then 0 else 1)
            else (if att1 + att2 ≤ sea_threshold
                (SEAGen.init 2 7 false 0).classification_function_index
                then 0 else 1))
        ∧ ((SEAGen.init 2 7 false 0).noise_percentage < 1/100 →
            label = (if att1 + att2 ≤ sea_threshold
                (SEAGen.init 2 7 false 0).classification_function_index
              then 0 else 1)) :=
  ⟨fun s p => ⟨by norm_num, by norm_num⟩, rfl, by norm_num [SEAGen.init],
    C9_sea_label (fun _ _ => (1/2 : ℚ))
      (fun s p => ⟨by norm_num, by norm_num⟩)
      (SEAGen.init 2 7 false 0) rfl (by norm_num [SEAGen.init]) 0⟩

/-! ## Lemmas about the demo loop counters -/

/-- Closed form of the demo's main loop: it always runs `remaining` more
iterations, and adds to `correctly_classified` exactly the number of correct
non-sentinel predictions among the instances it scores. -/
lemma demoLoop_eq (pred : ℕ → Option ℤ) (y : ℕ → ℤ) (off : ℕ) :
    ∀ remaining sc cc,
      demoLoop pred y off remaining sc cc
        = (sc + remaining, cc + correctFrom pred y off sc remaining) := by
  intro remaining
  induction remaining with
  | zero => intro sc cc; simp [demoLoop, correctFrom]
  | succ r ih =>
    intro sc cc
    simp only [demoLoop]
    rw [ih (sc + 1)]
    refine Prod.ext ?_ ?_
    · show sc + 1 + r = sc + (r + 1)
      omega
    · show (if correctStep pred y (off + sc) then cc + 1 else cc)
          + correctFrom pred y off (sc + 1) r
        = cc + correctFrom pred y off sc (r + 1)
      simp only [correctFrom]
      split <;> omega

/-- `correctFrom` peels its last instance. -/
lemma correctFrom_succ_eq (pred : ℕ → Option ℤ) (y : ℕ → ℤ) (off : ℕ) :
    ∀ n start,
      correctFrom pred y off start (n + 1)
        = correctFrom pred y off start n
          + (if correctStep pred y (off + (start + n)) then 1 else 0) := by
  intro n
  induction n with
  | zero => intro start; simp [correctFrom]
  | succ n ih =>
    intro start
    have h1 : correctFrom pred y off start (n + 1 + 1)
        = (if correctStep pred y (off + start) then 1 else 0)
          + correctFrom pred y off (start + 1) (n + 1) := rfl
    have h2 : correctFrom pred y off start (n + 1)
        = (if correctStep pred y (off + start) then 1 else 0)
          + correctFrom pred y off (start + 1) n := rfl
    rw [h1, ih (start + 1), h2]
    have : off + (start + 1 + n) = off + (start + (n + 1)) := by omega
    rw [this]
    omega

/-- `correctFrom` started at 0 counts, over `k < n`, the iterations whose
prediction is non-sentinel and correct. -/
lemma correctFrom_eq_countP (pred : ℕ → Option ℤ) (y : ℕ → ℤ) (off : ℕ) :
    ∀ n, correctFrom pred y off 0 n
      = (List.range n).countP (fun j => correctStep pred y (off + j)) := by
  intro n
  induction n with
  | zero => simp [correctFrom]
  | succ n ih =>
    rw [correctFrom_succ_eq, ih, List.range_succ, List.countP_append]
    simp [List.countP_cons]

/-- A correct prediction is in particular a non-sentinel prediction. -/
lemma correctStep_isSome (pred : ℕ → Option ℤ) (y : ℕ → ℤ) (i : ℕ)
    (h : correctStep pred y i = true) : (pred i).isSome = true := by
  unfold correctStep at h
  cases hp : pred i with
  | none => rw [hp] at h; simp at h
  | some v => simp [hp]

/-- The counters are computed only from instances `off + i`: oracles that
agree from index `off` on yield the same loop result. -/
lemma correctFrom_congr (pred pred1 : ℕ → Option ℤ) (y y1 : ℕ → ℤ) (off : ℕ)
    (hp : ∀ i, off ≤ i → pred1 i = pred i) (hy : ∀ i, off ≤ i → y1 i = y i) :
    ∀ n start,
      correctFrom pred1 y1 off start n = correctFrom pred y off start n := by
  intro n
  induction n with
  | zero => intro start; rfl
  | succ n ih =>
    intro start
    have hstep : correctStep pred1 y1 (off + start)
        = correctStep pred y (off + start) := by
      unfold correctStep
      rw [hp (off + start) (by omega), hy (off + start) (by omega)]
    show (if correctStep pred1 y1 (off + start) then 1 else 0) + _
        = (if correctStep pred y (off + start) then 1 else 0) + _
    rw [hstep, ih (start + 1)]

/-! ## C3 — handling of the no-prediction sentinel -/

/-- C3 (counterexample to the claim as stated): the claim says an instance
with a `None` prediction is excluded from the accuracy denominator.  With
two scored instances, the first predicted correctly and the second answered
by the sentinel `None`, the demo reports `1/2` (denominator
`sample_count = 2`), not `1/1` = correct / non-sentinel as the claim
requires. -/
theorem C3_counterexample :
    demoRun (fun i => if i = 0 then some 1 else none) (fun _ => 1) 0 2 = (2, 1)
    ∧ nonSentinelCount (fun i => if i = 0 then some 1 else none) 0 2 = 1
    ∧ reportedPerformance (fun i => if i = 0 then some 1 else none)
        (fun _ => 1) 0 2 = 1/2
    ∧ (1/2 : ℚ) ≠ (1 : ℚ) / (1 : ℚ) := by
  have h1 : demoRun (fun i => if i = 0 then some 1 else none)
      (fun _ => 1) 0 2 = (2, 1) := by decide
  refine ⟨h1, by decide, ?_, by norm_num⟩
  rw [reportedPerformance, h1]
  norm_num

/-- C3 (amended): when the classifier returns the sentinel `None` for an
instance, the loop does not crash and the instance is not counted as
correct, but it still counts in the denominator: `sample_count` ends at
`max_samples` regardless of sentinels, `correctly_classified` counts exactly
the non-sentinel correct predictions (hence is at most the number of
non-sentinel predictions), and the reported performance is
`correctly_classified / max_samples` — not correct / non-sentinel. -/
theorem C3_sentinel_handling (pred : ℕ → Option ℤ) (y : ℕ → ℤ)
    (train_size max_samples : ℕ) (_hm : 0 < max_samples) :
    demoRun pred y train_size max_samples
      = (max_samples, correctFrom pred y train_size 0 max_samples)
    ∧ correctFrom pred y train_size 0 max_samples
        ≤ nonSentinelCount pred train_size max_samples
    ∧ reportedPerformance pred y train_size max_samples
        = (correctFrom pred y train_size 0 max_samples : ℚ)
          / (max_samples : ℚ) := by
  have hrun : demoRun pred y train_size max_samples
      = (max_samples, correctFrom pred y train_size 0 max_samples) := by
    rw [demoRun, demoLoop_eq]
    simp
  refine ⟨hrun, ?_, ?_⟩
  · rw [correctFrom_eq_countP, nonSentinelCount]
    exact List.countP_mono_left
      (fun j _ h => correctStep_isSome pred y (train_size + j) h)
  · rw [reportedPerformance, hrun]

/-- C3 witness: with one of three scored instances answered by the sentinel,
all counters are as the amended theorem states (performance `1/3`, one
instance neither correct nor in the numerator but still in the
denominator). -/
theorem C3_sentinel_handling_witness :
    demoRun (fun i => if i = 1 then none else some 0) (fun _ => 0) 0 3
      = (3, correctFrom (fun i => if i = 1 then none else some 0)
          (fun _ => 0) 0 0 3)
    ∧ correctFrom (fun i => if i = 1 then none else some 0) (fun _ => 0) 0 0 3
        ≤ nonSentinelCount (fun i => if i = 1 then none else some 0) 0 3
    ∧ reportedPerformance (fun i => if i = 1 then none else some 0)
        (fun _ => 0) 0 3
      = (correctFrom (fun i => if i = 1 then none else some 0)
          (fun _ => 0) 0 0 3 : ℚ) / ((3 : ℕ) : ℚ) :=
  C3_sentinel_handling (fun i => if i = 1 then none else some 0)
    (fun _ => 0) 0 3 (by omega)

/-! ## C7 — pretrain isolation -/

/-- Every event of the main loop's trace concerns a loop instance
`off + k`, `k < m`. -/
lemma loopTrace_mem (off : ℕ) :
    ∀ m e, e ∈ loopTrace off m →
      ∃ k, k < m ∧ (e = .pull (off + k) 1 ∨ e = .predict (off + k)
        ∨ e = .fit (off + k) 1) := by
  intro m
  induction m with
  | zero => intro e h; simp [loopTrace] at h
  | succ m ih =>
    intro e h
    simp only [loopTrace, List.mem_append] at h
    rcases h with h | h
    · obtain ⟨k, hk, hcase⟩ := ih e h
      exact ⟨k, by omega, hcase⟩
    · simp only [List.mem_cons, List.mem_singleton] at h
      rcases h with h | h | h | h
      · exact ⟨m, by omega, Or.inl h⟩
      · exact ⟨m, by omega, Or.inr (Or.inl h)⟩
      · exact ⟨m, by omega, Or.inr (Or.inr h)⟩
      · simp at h

/-- C7: with a positive pretraining size, the demo's accuracy counters
reflect exactly the `max_samples` instances scored in the main loop: the
final `sample_count` is `max_samples` and `correctly_classified` counts the
correct non-sentinel predictions among instances
`train_size … train_size + max_samples - 1` only.  The pretraining
instances are never predicted, are covered by exactly one `partial_fit`
event (every other fit touches only loop instances), and the counters are
independent of the oracles' values on the pretraining instances. -/
theorem C7_pretrain_isolation (pred : ℕ → Option ℤ) (y : ℕ → ℤ)
    (train_size max_samples : ℕ) (ht : 0 < train_size) :
    demoRun pred y train_size max_samples
      = (max_samples, correctFrom pred y train_size 0 max_samples)
    ∧ (∀ i, DemoEvent.predict i ∈ demoTrace train_size max_samples →
        train_size ≤ i)
    ∧ (demoTrace train_size max_samples).count (.fit 0 train_size) = 1
    ∧ (∀ first count,
        DemoEvent.fit first count ∈ demoTrace train_size max_samples →
        (first = 0 ∧ count = train_size) ∨ train_size ≤ first)
    ∧ (∀ (pred1 : ℕ → Option ℤ) (y1 : ℕ → ℤ),
        (∀ i, train_size ≤ i → pred1 i = pred i) →
        (∀ i, train_size ≤ i → y1 i = y i) →
        demoRun pred1 y1 train_size max_samples
          = demoRun pred y train_size max_samples) := by
  have hrun : demoRun pred y train_size max_samples
      = (max_samples, correctFrom pred y train_size 0 max_samples) := by
    rw [demoRun, demoLoop_eq]
    simp
  have htrace : demoTrace train_size max_samples
      = [DemoEvent.pull 0 train_size, DemoEvent.fit 0 train_size]
        ++ loopTrace train_size max_samples := by
    rw [demoTrace, if_pos ht]
  refine ⟨hrun, ?_, ?_, ?_, ?_⟩
  · intro i hmem
    rw [htrace] at hmem
    rcases List.mem_append.mp hmem with h | h
    · rcases List.mem_cons.mp h with h1 | h1
      · exact DemoEvent.noConfusion h1
      · rcases List.mem_singleton.mp h1 with h2
        exact DemoEvent.noConfusion h2
    · obtain ⟨k, hk, hcase⟩ := loopTrace_mem train_size max_samples _ h
      rcases hcase with h1 | h1 | h1
      · exact DemoEvent.noConfusion h1
      · injection h1 with h2
        omega
      · exact DemoEvent.noConfusion h1
  · rw [htrace]
    rw [List.count_append]
    have hpre : ([DemoEvent.pull 0 train_size,
        DemoEvent.fit 0 train_size] : List DemoEvent).count
          (.fit 0 train_size) = 1 := by
      simp [List.count_cons]
    have hloop : (loopTrace train_size max_samples).count
        (.fit 0 train_size) = 0 := by
      rw [List.count_eq_zero]
      intro hmem
      obtain ⟨k, hk, hcase⟩ := loopTrace_mem train_size max_samples _ hmem
      rcases hcase with h1 | h1 | h1
      · exact DemoEvent.noConfusion h1
      · exact DemoEvent.noConfusion h1
      · injection h1 with h2 h3
        omega
    omega
  · intro first count hmem
    rw [htrace] at hmem
    rcases List.mem_append.mp hmem with h | h
    · rcases List.mem_cons.mp h with h1 | h1
      · exact DemoEvent.noConfusion h1
      · rcases List.mem_singleton.mp h1 with h2
        injection h2 with h3 h4
        exact Or.inl ⟨h3, h4⟩
    · obtain ⟨k, hk, hcase⟩ := loopTrace_mem train_size max_samples _ h
      rcases hcase with h1 | h1 | h1
      · exact DemoEvent.noConfusion h1
      · exact DemoEvent.noConfusion h1
      · injection h1 with h2 h3
        omega
  · intro pred1 y1 hp hy
    rw [hrun, demoRun, demoLoop_eq,
      correctFrom_congr pred pred1 y y1 train_size hp hy]
    simp

/-- C7 witness: the theorem at `train_size = 2`, `max_samples = 2`, with an
oracle predicting label 1 everywhere and true labels all 1. -/
theorem C7_pretrain_isolation_witness :
    demoRun (fun _ => some 1) (fun _ => 1) 2 2
      = (2, correctFrom (fun _ => some 1) (fun _ => 1) 2 0 2)
    ∧ (∀ i, DemoEvent.predict i ∈ demoTrace 2 2 → 2 ≤ i)
    ∧ (demoTrace 2 2).count (.fit 0 2) = 1
    ∧ (∀ first count, DemoEvent.fit first count ∈ demoTrace 2 2 →
        (first = 0 ∧ count = 2) ∨ 2 ≤ first)
    ∧ (∀ (pred1 : ℕ → Option ℤ) (y1 : ℕ → ℤ),
        (∀ i, 2 ≤ i → pred1 i = (fun _ => some 1) i) →
        (∀ i, 2 ≤ i → y1 i = (fun _ => (1 : ℤ)) i) →
        demoRun pred1 y1 2 2 = demoRun (fun _ => some 1) (fun _ => 1) 2 2) :=
  C7_pretrain_isolation (fun _ => some 1) (fun _ => 1) 2 2 (by omega)

/-! ## C2 — test-then-train ordering in the demo loop -/

lemma loopTrace_length (off : ℕ) : ∀ m, (loopTrace off m).length = 3 * m := by
  intro m
  induction m with
  | zero => rfl
  | succ m ih =>
    simp only [loopTrace, List.length_append, ih, List.length_cons,
      List.length_nil]
    omega

/-- Position of the `predict` event of loop iteration `k`. -/
lemma loopTrace_get_predict (off : ℕ) :
    ∀ m k, k < m →
      (loopTrace off m).get? (3 * k + 1) = some (.predict (off + k)) := by
  intro m
  induction m with
  | zero => intro k hk; omega
  | succ m ih =>
    intro k hk
    simp only [loopTrace]
    by_cases hkm : k < m
    · rw [List.get?_append (by rw [loopTrace_length]; omega)]
      exact ih k hkm
    · have hk1 : k = m := by omega
      subst hk1
      rw [List.get?_append_right (by rw [loopTrace_length]; omega)]
      rw [loopTrace_length]
      have h1 : 3 * k + 1 - 3 * k = 1 := by omega
      rw [h1]
      rfl

/-- Position of the `fit` event of loop iteration `k`. -/
lemma loopTrace_get_fit (off : ℕ) :
    ∀ m k, k < m →
      (loopTrace off m).get? (3 * k + 2) = some (.fit (off + k) 1) := by
  intro m
  induction m with
  | zero => intro k hk; omega
  | succ m ih =>
    intro k hk
    simp only [loopTrace]
    by_cases hkm : k < m
    · rw [List.get?_append (by rw [loopTrace_length]; omega)]
      exact ih k hkm
    · have hk1 : k = m := by omega
      subst hk1
      rw [List.get?_append_right (by rw [loopTrace_length]; omega)]
      rw [loopTrace_length]
      have h1 : 3 * k + 2 - 3 * k = 2 := by omega
      rw [h1]
      rfl

/-- In the loop's trace, the only `partial_fit` event containing loop
instance `off + k` sits at position `3k + 2` (directly after that
instance's `predict` at `3k + 1`). -/
lemma loopTrace_fit_pos (off : ℕ) :
    ∀ m j e k, (loopTrace off m).get? j = some e →
      fitContains e (off + k) = true → j = 3 * k + 2 := by
  intro m
  induction m with
  | zero => intro j e k h _; simp [loopTrace] at h
  | succ m ih =>
    intro j e k h hfit
    simp only [loopTrace] at h
    by_cases hj : j < (loopTrace off m).length
    · rw [List.get?_append hj] at h
      exact ih j e k h hfit
    · push_neg at hj
      rw [List.get?_append_right hj] at h
      rw [loopTrace_length] at hj
      rw [loopTrace_length] at h
      have hlt : j - 3 * m < 3 := by
        obtain ⟨hd, -⟩ := List.get?_eq_some.mp h
        simpa using hd
      have hd : j - 3 * m = 0 ∨ j - 3 * m = 1 ∨ j - 3 * m = 2 := by omega
      rcases hd with hd | hd | hd <;> rw [hd] at h
      · injection h with h1
        subst h1
        simp [fitContains] at hfit
      · injection h with h1
        subst h1
        simp [fitContains] at hfit
      · injection h with h1
        subst h1
        simp only [fitContains, decide_eq_true_eq] at hfit
        omega

/-- With a nonempty pretraining prefix, position `2 + n` of the demo trace is
position `n` of the loop trace. -/
lemma demoTrace_get_loop (train_size max_samples n : ℕ) (hts : 0 < train_size) :
    (demoTrace train_size max_samples).get? (2 + n)
      = (loopTrace train_size max_samples).get? n := by
  rw [demoTrace, if_pos hts]
  rw [List.get?_append_right (by simp)]
  congr 1
  simp only [List.length_cons, List.length_nil]
  omega

/-- C2: in the demo's event trace, for every main-loop iteration
`k < max_samples` there are positions `i < j` holding the `predict` and the
`partial_fit` on that iteration's instance, and every `partial_fit` event
whose batch contains that instance occurs strictly after position `i` — the
prediction for an instance is computed strictly before that instance updates
any learner state. -/
theorem C2_test_then_train (train_size max_samples k : ℕ)
    (hk : k < max_samples) :
    ∃ i j : ℕ, i < j
      ∧ (demoTrace train_size max_samples).get? i
          = some (.predict (train_size + k))
      ∧ (demoTrace train_size max_samples).get? j
          = some (.fit (train_size + k) 1)
      ∧ ∀ j1 e, (demoTrace train_size max_samples).get? j1 = some e →
          fitContains e (train_size + k) = true → i < j1 := by
  by_cases hts : 0 < train_size
  · have htrace : demoTrace train_size max_samples
        = [DemoEvent.pull 0 train_size, DemoEvent.fit 0 train_size]
          ++ loopTrace train_size max_samples := by
      rw [demoTrace, if_pos hts]
    refine ⟨2 + (3 * k + 1), 2 + (3 * k + 2), by omega, ?_, ?_, ?_⟩
    · rw [demoTrace_get_loop train_size max_samples (3 * k + 1) hts]
      exact loopTrace_get_predict train_size max_samples k hk
    · rw [demoTrace_get_loop train_size max_samples (3 * k + 2) hts]
      exact loopTrace_get_fit train_size max_samples k hk
    · intro j1 e h hfit
      by_cases hj1 : j1 < 2
      · rw [htrace] at h
        rw [List.get?_append (by simpa using hj1)] at h
        have hd : j1 = 0 ∨ j1 = 1 := by omega
        rcases hd with hd | hd <;> rw [hd] at h
        · injection h with h1
          subst h1
          simp [fitContains] at hfit
        · injection h with h1
          subst h1
          simp only [fitContains, decide_eq_true_eq] at hfit
          omega
      · push_neg at hj1
        have hj2 : j1 = 2 + (j1 - 2) := by omega
        rw [hj2, demoTrace_get_loop train_size max_samples (j1 - 2) hts] at h
        have hpos := loopTrace_fit_pos train_size max_samples (j1 - 2) e k h hfit
        omega
  · have htrace : demoTrace train_size max_samples
        = loopTrace train_size max_samples := by
      rw [demoTrace, if_neg hts, List.nil_append]
    refine ⟨3 * k + 1, 3 * k + 2, by omega, ?_, ?_, ?_⟩
    · rw [htrace]
      exact loopTrace_get_predict train_size max_samples k hk
    · rw [htrace]
      exact loopTrace_get_fit train_size max_samples k hk
    · intro j1 e h hfit
      rw [htrace] at h
      have hpos := loopTrace_fit_pos train_size max_samples j1 e k h hfit
      omega

/-- C2 witness: the second loop iteration (`k = 1`) of a demo with
`train_size = 2`, `max_samples = 3`. -/
theorem C2_test_then_train_witness :
    (1 : ℕ) < 3
    ∧ ∃ i j : ℕ, i < j
      ∧ (demoTrace 2 3).get? i = some (.predict (2 + 1))
      ∧ (demoTrace 2 3).get? j = some (.fit (2 + 1) 1)
      ∧ ∀ j1 e, (demoTrace 2 3).get? j1 = some e →
          fitContains e (2 + 1) = true → i < j1 :=
  ⟨by omega, C2_test_then_train 2 3 1 (by omega)⟩

/-! ## C10 — InstanceHeader bounds safety -/

/-- C10: `get_header_label_at` returns the header entry exactly when the
header exists and `0 ≤ i < len(header)`; for every other input — any
negative index (including the default `-1`, which is never given Python's
last-element meaning), any index past the end, or a missing header — it
returns `None`.  The function is total, so no input raises. -/
theorem C10_header_bounds (header : Option (List String)) (i : ℤ) :
    (∀ l, header = some l → 0 ≤ i → i < (l.length : ℤ) →
        get_header_label_at header i = l.get? i.toNat)
    ∧ (∀ l, header = some l → i < 0 ∨ (l.length : ℤ) ≤ i →
        get_header_label_at header i = none)
    ∧ (header = none → get_header_label_at header i = none)
    ∧ get_header_label_at header (-1) = none := by
  have hsome : ∀ (l : List String) (j : ℤ),
      get_header_label_at (some l) j
        = if hj : (-1 : ℤ) < j ∧ j < (l.length : ℤ)
          then some (l.get ⟨j.toNat, by omega⟩) else none := fun l j => rfl
  refine ⟨?_, ?_, ?_, ?_⟩
  · intro l hl h0 hlen
    subst hl
    rw [hsome, dif_pos ⟨by omega, hlen⟩,
      List.get?_eq_get (show i.toNat < l.length by omega)]
  · intro l hl hcase
    subst hl
    rw [hsome, dif_neg]
    rintro ⟨h1, h2⟩
    omega
  · intro h
    subst h
    rfl
  · cases header with
    | none => rfl
    | some l =>
      rw [hsome, dif_neg]
      rintro ⟨h1, -⟩
      omega

/-- C10 witness: concrete calls — an in-bounds index, an index past the end,
a missing header, and the default index `-1`. -/
theorem C10_header_bounds_witness :
    get_header_label_at (some ["x", "y"]) 1
        = (["x", "y"] : List String).get? (1 : ℤ).toNat
    ∧ get_header_label_at (some ["x", "y"]) 5 = none
    ∧ get_header_label_at none 3 = none
    ∧ get_header_label_at (some ["x", "y"]) (-1) = none :=
  ⟨(C10_header_bounds (some ["x", "y"]) 1).1 _ rfl (by omega) (by norm_num),
   (C10_header_bounds (some ["x", "y"]) 5).2.1 _ rfl (by norm_num),
   (C10_header_bounds none 3).2.2.1 rfl,
   (C10_header_bounds (some ["x", "y"]) (-1)).2.2.2⟩

end Skmultiflow
